import Mathlib

/-!
Verification of the sequence-builder, tool-call-extraction and
preprocessing logic of the keras-io example notebooks/guides.

The Python sources are shallowly embedded below:
* the sequential-retrieval notebook's data pipeline
  (`get_movie_sequence_per_user`, `generate_examples_from_user_sequence`,
  `generate_examples_from_user_sequences`);
* the function-calling guide's `extract_tool_call`, `capture_code_output`,
  `try_parse_funccall` and `preprocess`.

External library calls (pandas IO, the tokenizer, `json` encoding, numpy
array construction) are modelled as explicit parameters or as plain Lean
data; everything this repository's own code computes is translated
faithfully and kept executable.
-/

namespace KerasExamples

/-! ## Sequential retrieval notebook: data model

The notebook fixes the hyperparameters `MAX_CONTEXT_LENGTH = 10` and
`MIN_SEQUENCE_LENGTH = 3` as module-level constants; the two generator
functions read them as globals, so the embedding passes them explicitly
and defines the notebook's values separately. -/

def MAX_CONTEXT_LENGTH : Nat := 10

def MIN_SEQUENCE_LENGTH : Nat := 3

/-- One parsed row of `ratings.dat` (`ratings_df.values` row order is
UserID, MovieID, Rating, Timestamp). -/
structure RatingRow where
  user_id : Nat
  movie_id : Nat
  rating : Int
  timestamp : Int
deriving Repr, DecidableEq

/-- One element of a per-user sequence: the dict
with keys movie_id / timestamp / rating built by
`get_movie_sequence_per_user`. -/
structure Interaction where
  movie_id : Nat
  timestamp : Int
  rating : Int
deriving Repr, DecidableEq, Inhabited

/-- The padding element appended by the while-loop in
`generate_examples_from_user_sequence` (movie_id 0, timestamp 0,
rating 0.0; the float rating is represented by the integer 0 — ratings
are never read back from a padding element). -/
def padInteraction : Interaction := ⟨0, 0, 0⟩

/-- One produced training/evaluation example: the dict with keys
context_movie_id / label_movie_id. -/
structure Example where
  context_movie_id : List Nat
  label_movie_id : Nat
deriving Repr, DecidableEq

/-- Appending a ratings row to the group of its user, creating the group
at the end on first sight — the iteration order of a Python
`defaultdict(list)` is first-insertion order. -/
def appendToUser (user_id : Nat) (x : Interaction) :
    List (Nat × List Interaction) → List (Nat × List Interaction)
  | [] => [(user_id, [x])]
  | (u, xs) :: rest =>
    if u = user_id then (u, xs ++ [x]) :: rest
    else (u, xs) :: appendToUser user_id x rest

/-- Stable insertion of an interaction after every element with a
timestamp less than or equal to its own. -/
def insertByTimestamp (x : Interaction) : List Interaction → List Interaction
  | [] => [x]
  | y :: ys =>
    if y.timestamp ≤ x.timestamp then y :: insertByTimestamp x ys
    else x :: y :: ys

/-- Python's `list.sort(key=lambda x: x["timestamp"])` is a stable sort
by timestamp; it is modelled by a stable insertion sort, which computes
the same list as any stable sort with the same key. -/
def sortByTimestamp (l : List Interaction) : List Interaction :=
  l.foldl (fun acc x => insertByTimestamp x acc) []

/-- Embedding of `get_movie_sequence_per_user`: group the rating rows by
user in input order, then sort every group by timestamp (stably). -/
def get_movie_sequence_per_user (rows : List RatingRow) :
    List (Nat × List Interaction) :=
  let grouped := rows.foldl
    (fun acc r => appendToUser r.user_id ⟨r.movie_id, r.timestamp, r.rating⟩ acc) []
  grouped.map (fun p => (p.1, sortByTimestamp p.2))

/-- The body of the `for label_idx in range(1, len(sequence))` loop:
`start_idx = max(0, label_idx - MAX_CONTEXT_LENGTH)` (truncated `Nat`
subtraction), `context = sequence[start_idx:label_idx]`, right-append of
padding elements until the context has `MAX_CONTEXT_LENGTH` entries,
then extraction of the movie ids and of the label. -/
def makeExample (maxContextLength : Nat) (sequence : List Interaction)
    (label_idx : Nat) : Example :=
  let start_idx := label_idx - maxContextLength
  let context := (sequence.drop start_idx).take (label_idx - start_idx)
  let padded := context ++ List.replicate (maxContextLength - context.length) padInteraction
  { context_movie_id := padded.map (fun m => m.movie_id)
    label_movie_id := (sequence.getD label_idx padInteraction).movie_id }

/-- The loop of `generate_examples_from_user_sequence` over the list of
label indices: the example whose label index is `len(sequence) - 1` is
appended to the test list, every other example to the train list, in
loop order. -/
def genLoop (maxContextLength : Nat) (sequence : List Interaction) :
    List Nat → List Example × List Example
  | [] => ([], [])
  | label_idx :: rest =>
    let p := genLoop maxContextLength sequence rest
    if label_idx = sequence.length - 1 then
      (p.1, makeExample maxContextLength sequence label_idx :: p.2)
    else
      (makeExample maxContextLength sequence label_idx :: p.1, p.2)

/-- Embedding of `generate_examples_from_user_sequence`: the label index
runs over `range(1, len(sequence))`. -/
def generate_examples_from_user_sequence (maxContextLength : Nat)
    (sequence : List Interaction) : List Example × List Example :=
  genLoop maxContextLength sequence (List.range' 1 (sequence.length - 1))

/-- Embedding of `generate_examples_from_user_sequences` over the list
of the users' sequences (`sequences.values()` in first-insertion
order): users with fewer than `MIN_SEQUENCE_LENGTH` interactions are
skipped, the others' train/test examples are concatenated in order. -/
def generate_examples_from_user_sequences (maxContextLength minSequenceLength : Nat) :
    List (List Interaction) → List Example × List Example
  | [] => ([], [])
  | sequence :: rest =>
    let p := generate_examples_from_user_sequences maxContextLength minSequenceLength rest
    if sequence.length < minSequenceLength then p
    else
      let q := generate_examples_from_user_sequence maxContextLength sequence
      (q.1 ++ p.1, q.2 ++ p.2)

/-- The four-interaction scenario of the spec: one user watching items
10, 20, 30, 40 at strictly increasing timestamps. -/
def scenarioRows : List RatingRow :=
  [⟨1, 10, 5, 1⟩, ⟨1, 20, 5, 2⟩, ⟨1, 30, 5, 3⟩, ⟨1, 40, 5, 4⟩]

def seqW3 : List Interaction := [⟨10, 1, 5⟩, ⟨20, 2, 5⟩, ⟨30, 3, 5⟩]

/-- The spec's left-padding property: every sentinel zero precedes every
real movie id in the context (zeros form a prefix). -/
def sentinelsPrecedeReals (context : List Nat) : Bool :=
  (context.dropWhile (fun m => m == 0)).all (fun m => m != 0)

def seqW4 : List Interaction :=
  [⟨10, 1, 5⟩, ⟨20, 2, 5⟩, ⟨30, 3, 5⟩, ⟨40, 4, 5⟩]

/-! ## Function-calling guide: `extract_tool_call`

The Python function searches `response_text` with the DOTALL regular
expression consisting of the literal fence-tag, a greedy whitespace
star, a literal newline, a lazy dot-star capture group and the literal
newline-plus-closing-fence, and returns the stripped capture of the
leftmost match, or None. The regex engine is embedded directly: leftmost
search, greedy-with-backtracking whitespace, lazy capture. -/

/-- ASCII whitespace as matched by the pattern's whitespace class and
removed by Python's str.strip() (the guide's payloads are ASCII). -/
def pyWs (c : Char) : Bool :=
  c = ' ' || c = '\t' || c = '\n' || c = '\r' || c = '\x0b' || c = '\x0c'

/-- The opening fence-tag literal of the pattern (12 characters). -/
def toolOpen : List Char := "```tool_code".toList

/-- The closing literal of the pattern: a newline then three backticks. -/
def closeMark : List Char := "\n```".toList

/-- The lazy capture: the characters before the first occurrence of the
closing literal, if that literal occurs at all. -/
def findClose : List Char → Option (List Char)
  | [] => none
  | c :: rest =>
    if closeMark.isPrefixOf (c :: rest) then some []
    else
      match findClose rest with
      | some cap => some (c :: cap)
      | none => none

/-- Greedy whitespace-star followed by a literal newline, with
backtracking: newline positions inside the whitespace run are tried from
the rightmost one backwards, each continuing with the lazy capture. -/
def tryNl (run tail : List Char) : Nat → Option (List Char)
  | 0 => none
  | i + 1 =>
    if run.getD i ' ' = '\n' then
      match findClose (run.drop (i + 1) ++ tail) with
      | some cap => some cap
      | none => tryNl run tail i
    else tryNl run tail i

/-- re.search: the match is attempted at every position from the left;
at a position starting with the fence-tag the rest of the pattern is
matched against the remainder. -/
def searchTool : List Char → Option (List Char)
  | [] => none
  | c :: rest =>
    if toolOpen.isPrefixOf (c :: rest) then
      match tryNl (((c :: rest).drop 12).takeWhile pyWs)
          (((c :: rest).drop 12).dropWhile pyWs)
          ((((c :: rest).drop 12).takeWhile pyWs)).length with
      | some cap => some cap
      | none => searchTool rest
    else searchTool rest

/-- Python str.strip(): drop whitespace from both ends. -/
def pyStrip (l : List Char) : List Char :=
  ((l.dropWhile pyWs).reverse.dropWhile pyWs).reverse

/-- Embedding of `extract_tool_call`: the stripped capture group of the
leftmost match of the fenced-block pattern, or None when the pattern
does not match. -/
def extract_tool_call (response_text : String) : Option String :=
  (searchTool response_text.toList).map (fun cap => String.mk (pyStrip cap))

/-- Occurrence of `pat` as a contiguous substring, executably. -/
def hasInfixB (pat : List Char) : List Char → Bool
  | [] => pat.isEmpty
  | c :: rest => pat.isPrefixOf (c :: rest) || hasInfixB pat rest

/-! ## Function-calling guide: `capture_code_output`

The function's own logic wraps the interpreter's `eval`/`exec` (which
are external): try `eval`; on SyntaxError fall back to `exec`; catch
any exception deriving from `Exception` and return a descriptive error
string; on success return the captured stdout when it strips to a
non-empty string, else the result value. The interpreter's behaviour on
the given code string and namespace is the embedding's input. -/

/-- A Python runtime value as far as the wrapper observes it. -/
inductive PyVal
  | pynone
  | pyint (n : Int)
  | pystr (s : String)
deriving Repr, DecidableEq

/-- A raised Python exception: whether its class derives from
`Exception` (SystemExit, KeyboardInterrupt and GeneratorExit derive
only from `BaseException`), and its message. -/
structure PyExc where
  derivesFromException : Bool
  msg : String
deriving Repr, DecidableEq

/-- Outcome of `eval(code_string, globals_dict, locals_dict)`. -/
inductive EvalOutcome
  | value (v : PyVal)
  | notExpr
  | raises (e : PyExc)
deriving Repr, DecidableEq

/-- Behaviour of the interpreter on one code string and namespace: the
eval outcome (`notExpr` = eval raised SyntaxError because the code is
statements), the exec outcome used on that fallback (`none` = ran to
completion), and the text left on the redirected stdout. -/
structure CodeBehavior where
  evalOutcome : EvalOutcome
  execExc : Option PyExc
  stdout : String
deriving Repr, DecidableEq

/-- The wrapper's observable return value. -/
inductive CaptureResult
  | errorString (s : String)
  | stdoutText (s : String)
  | value (v : PyVal)
deriving Repr, DecidableEq

/-- Python truthiness of `stdout_output.strip()`: some character of the
captured stdout is not whitespace. -/
def stripTruthy (s : String) : Bool := s.toList.any (fun c => !(pyWs c))

/-- Embedding of `capture_code_output`. A propagated exception — one the
`except Exception` clause does not catch — is the `Except.error` case;
every caught exception becomes the descriptive error string. -/
def capture_code_output (b : CodeBehavior) : Except PyExc CaptureResult :=
  let attempt : Except PyExc PyVal :=
    match b.evalOutcome with
    | .value v => .ok v
    | .raises e => .error e
    | .notExpr =>
      match b.execExc with
      | none => .ok .pynone
      | some e => .error e
  match attempt with
  | .error e =>
    if e.derivesFromException then
      .ok (.errorString ("Error during code execution: " ++ e.msg))
    else
      .error e
  | .ok v =>
    if stripTruthy b.stdout then .ok (.stdoutText b.stdout)
    else .ok (.value v)

/-! ## Function-calling guide: `try_parse_funccall`

The function operates on the tokenized response: it finds the first
occurrence of the `[TOOL_CALLS]` control token, detokenizes what
follows and JSON-decodes it (tokenizer and json library are external —
modelled as one input function), checks the payload is a list of
objects, assigns each call a freshly generated random identifier
(`random.choices` over 62 alphanumerics, 9 characters — modelled as an
explicit supply indexed by call position), skips calls whose name is
not a key of the tools table, invokes the matching tool on the keyword
arguments and emits a `[TOOL_RESULTS]`-fenced result block holding the
tool's return value and the call id. JSONDecodeError, KeyError,
TypeError and ValueError are caught and yield the original response. -/

/-- A decoded JSON value. -/
inductive Json
  | null
  | bool (b : Bool)
  | num (n : Int)
  | str (s : String)
  | arr (items : List Json)
  | obj (fields : List (String × Json))

/-- The exception classes that the except clause catches and that the
loop body can raise (the json decode error is signalled by the decoder
input instead). -/
inductive PyErr
  | keyError
  | typeError
  | valueError
deriving Repr, DecidableEq

/-- Value of an object key (objects produced by `raw_decode` have
unique keys, so first match suffices). -/
def lookupKey (fields : List (String × Json)) (k : String) : Option Json :=
  match fields with
  | [] => none
  | (k', v) :: rest => if k' = k then some v else lookupKey rest k

/-- The membership test `call["name"] not in tools`: a string is looked
up; another hashable value is simply not a key of the table; an
unhashable value (list or dict) raises TypeError. -/
def nameKey : Json → Except PyErr (Option String)
  | .str s => .ok (some s)
  | .arr _ => .error .typeError
  | .obj _ => .error .typeError
  | _ => .ok none

/-- A registered tool: applied to the decoded keyword arguments it
returns its JSON-serializable value or raises (TypeError for a bad
signature, ValueError, ...). -/
def ToolTable : Type :=
  String → Option (List (String × Json) → Except PyErr Json)

/-- One entry of the returned list of token sequences: the original
response, a `[TOOL_RESULTS]` open or close control token, or the
tokenized JSON body carrying the tool's value and the call id. -/
inductive Segment
  | response
  | toolResultsOpen
  | content (value : Json) (call_id : String)
  | toolResultsClose

/-- The loop over the decoded calls. The call at position `k` is
assigned the identifier `ids k` before the unknown-tool check (exactly
as the Python assigns `call["id"]` first); unknown tools are skipped; a
known tool is invoked and its three-part result block emitted. Every
raised error aborts the whole loop. -/
def processCalls (tools : ToolTable) (ids : Nat → String) :
    Nat → List Json → Except PyErr (List Segment)
  | _, [] => .ok []
  | k, call :: rest =>
    match call with
    | .obj fields =>
      match lookupKey fields "name" with
      | none => .error .keyError
      | some nameJ =>
        match nameKey nameJ with
        | .error e => .error e
        | .ok none => processCalls tools ids (k + 1) rest
        | .ok (some nm) =>
          match tools nm with
          | none => processCalls tools ids (k + 1) rest
          | some f =>
            match lookupKey fields "arguments" with
            | none => .error .keyError
            | some argsJ =>
              match argsJ with
              | .obj args =>
                match f args with
                | .error e => .error e
                | .ok value =>
                  match processCalls tools ids (k + 1) rest with
                  | .error e => .error e
                  | .ok segs =>
                    .ok (.toolResultsOpen :: .content value (ids k) ::
                      .toolResultsClose :: segs)
              | _ => .error .typeError
    | _ => .error .typeError

/-- The payload check `isinstance(tool_calls, list) and all(isinstance
(item, dict) ...)`. -/
def isObjB : Json → Bool
  | .obj _ => true
  | _ => false

def isListOfObjs : Json → Bool
  | .arr calls => calls.all isObjB
  | _ => false

/-- Embedding of `try_parse_funccall`: `np.where(response ==
tool_call_id)[0]` with `pos[0]` is the first occurrence of the control
token; absence, decode failure, a payload that is not a list of
objects, and every caught error all return the original response as the
sole entry. -/
def try_parse_funccall (tools : ToolTable) (ids : Nat → String)
    (detokDecode : List Int → Except Unit Json) (toolCallId : Int)
    (response : List Int) : List Segment :=
  match response.findIdx? (fun t => t == toolCallId) with
  | none => [.response]
  | some pos =>
    match detokDecode (response.drop (pos + 1)) with
    | .error _ => [.response]
    | .ok tool_calls =>
      match tool_calls with
      | .arr calls =>
        if calls.all isObjB then
          match processCalls tools ids 0 calls with
          | .ok res => res
          | .error _ => [.response]
        else [.response]
      | _ => [.response]

/-- The call identifiers carried by the result blocks, in order. -/
def callIds : List Segment → List String
  | [] => []
  | .content _ cid :: rest => cid :: callIds rest
  | _ :: rest => callIds rest

/-- A concrete tools table for witnesses: one tool returning a value,
one raising TypeError. -/
def toolsW : ToolTable := fun nm =>
  if nm = "known_tool" then some (fun _ => .ok (.str "ok"))
  else if nm = "raising_tool" then some (fun _ => .error .typeError)
  else none

def decodeTwoKnown : List Int → Except Unit Json := fun _ =>
  .ok (.arr
    [.obj [("name", .str "known_tool"), ("arguments", .obj [])],
     .obj [("name", .str "known_tool"), ("arguments", .obj [])]])

def decodeUnknown : List Int → Except Unit Json := fun _ =>
  .ok (.arr [.obj [("name", .str "unknown_tool"), ("arguments", .obj [])]])

def decodeKnown : List Int → Except Unit Json := fun _ =>
  .ok (.arr [.obj [("name", .str "known_tool"),
                   ("arguments", .obj [("x", .num 1)])]])

def decodeBad : List Int → Except Unit Json := fun _ => .error ()

def decodeNotList : List Int → Except Unit Json := fun _ => .ok (.num 3)

def decodeMissingName : List Int → Except Unit Json := fun _ =>
  .ok (.arr [.obj [("arguments", .obj [])]])

def decodeKnownNoArgs : List Int → Except Unit Json := fun _ =>
  .ok (.arr [.obj [("name", .str "known_tool")]])

def decodeBadArgsType : List Int → Except Unit Json := fun _ =>
  .ok (.arr [.obj [("name", .str "known_tool"), ("arguments", .num 1)]])

def decodeToolRaises : List Int → Except Unit Json := fun _ =>
  .ok (.arr [.obj [("name", .str "raising_tool"), ("arguments", .obj [])]])

def decodeUnknownNoArgs : List Int → Except Unit Json := fun _ =>
  .ok (.arr [.obj [("name", .str "nosuch_tool")]])

/-! ## Function-calling guide: `preprocess`

The tokenized messages are concatenated into one row (`np.expand_dims`
adds the leading batch axis of size one), truncated to
`sequence_length` when longer, right-padded with zeros via `np.pad`,
and paired with the mask `np.arange(sequence_length) < concatd.shape[1]`
computed AFTER the truncation, cast to integers. Two-dimensional numpy
arrays are modelled as lists of rows. -/

structure PreprocessOut where
  token_ids : List (List Int)
  padding_mask : List (List Int)
deriving Repr, DecidableEq

/-- Embedding of `preprocess`. -/
def preprocess (messages : List (List Int)) (sequence_length : Nat) :
    PreprocessOut :=
  let concatd := messages.flatten
  let truncated :=
    if concatd.length > sequence_length then concatd.take sequence_length
    else concatd
  let padding_needed := sequence_length - truncated.length
  { token_ids := [truncated ++ List.replicate padding_needed 0]
    padding_mask := [(List.range sequence_length).map
      (fun i => if i < truncated.length then 1 else 0)] }

/-! ## Helper lemmas about the example-generation loop -/

theorem genLoop_append (maxContextLength : Nat) (sequence : List Interaction)
    (l₁ l₂ : List Nat) :
    genLoop maxContextLength sequence (l₁ ++ l₂) =
      ((genLoop maxContextLength sequence l₁).1 ++ (genLoop maxContextLength sequence l₂).1,
       (genLoop maxContextLength sequence l₁).2 ++ (genLoop maxContextLength sequence l₂).2) := by
  induction l₁ with
  | nil => simp [genLoop]
  | cons i rest ih =>
    simp only [List.cons_append, genLoop]
    by_cases h : i = sequence.length - 1 <;> simp [h, ih]

theorem genLoop_all_train (maxContextLength : Nat) (sequence : List Interaction)
    (l : List Nat) (h : ∀ i ∈ l, i ≠ sequence.length - 1) :
    genLoop maxContextLength sequence l =
      (l.map (makeExample maxContextLength sequence), []) := by
  induction l with
  | nil => simp [genLoop]
  | cons i rest ih =>
    have hi := h i (List.mem_cons_self i rest)
    simp [genLoop, ih (fun j hj => h j (List.mem_cons_of_mem _ hj)), hi]

theorem range'_split_last (n : Nat) (h : 2 ≤ n) :
    List.range' 1 (n - 1) = List.range' 1 (n - 2) ++ [n - 1] := by
  have h1 : 1 + 1 * (n - 2) = n - 1 := by omega
  have h2 : n - 1 = 1 + (n - 2) := by omega
  calc List.range' 1 (n - 1) = List.range' 1 (1 + (n - 2)) := by rw [← h2]
    _ = List.range' 1 (n - 2) ++ List.range' (1 + 1 * (n - 2)) 1 :=
        (List.range'_append 1 (n - 2) 1 1).symm
    _ = List.range' 1 (n - 2) ++ [n - 1] := by rw [h1, List.range'_one]

/-- Splitting `generate_examples_from_user_sequence` into its train part
(the examples at label indices 1 … n-2, in order) and its test part (the
single example at label index n-1), for sequences with at least two
interactions. -/
theorem generate_examples_split (maxContextLength : Nat) (seq : List Interaction)
    (h : 2 ≤ seq.length) :
    generate_examples_from_user_sequence maxContextLength seq =
      ((List.range' 1 (seq.length - 2)).map (makeExample maxContextLength seq),
       [makeExample maxContextLength seq (seq.length - 1)]) := by
  unfold generate_examples_from_user_sequence
  rw [range'_split_last seq.length h, genLoop_append]
  rw [genLoop_all_train _ _ _ (by
    intro i hi
    have := List.mem_range'.mp hi
    omega)]
  simp [genLoop]

theorem genLoop_eq_filter (maxContextLength : Nat) (sequence : List Interaction)
    (l : List Nat) :
    genLoop maxContextLength sequence l =
      ((l.filter (fun i => i != sequence.length - 1)).map
          (makeExample maxContextLength sequence),
       (l.filter (fun i => i == sequence.length - 1)).map
          (makeExample maxContextLength sequence)) := by
  induction l with
  | nil => simp [genLoop]
  | cons i rest ih =>
    by_cases h : i = sequence.length - 1 <;>
      simp [genLoop, h, ih, List.filter_cons]

theorem genLoop_mem (maxContextLength : Nat) (sequence : List Interaction)
    (l : List Nat) (ex : Example) :
    (ex ∈ (genLoop maxContextLength sequence l).1 ∨
     ex ∈ (genLoop maxContextLength sequence l).2) ↔
      ∃ i ∈ l, ex = makeExample maxContextLength sequence i := by
  rw [genLoop_eq_filter]
  constructor
  · rintro (hm | hm) <;>
      · rcases List.mem_map.mp hm with ⟨j, hj, hje⟩
        exact ⟨j, (List.mem_filter.mp hj).1, hje.symm⟩
  · rintro ⟨j, hj, hje⟩
    by_cases hc : j = sequence.length - 1
    · exact Or.inr (List.mem_map.mpr ⟨j, List.mem_filter.mpr ⟨hj, by simp [hc]⟩, hje.symm⟩)
    · exact Or.inl (List.mem_map.mpr ⟨j, List.mem_filter.mpr ⟨hj, by simp [hc]⟩, hje.symm⟩)

/-- Structure of a single produced example at an in-bounds label index:
the context's movie ids are the window of true-history ids followed by
sentinel zeros, the label is the movie id at the label index, and the
whole sequence of ids decomposes around window and label. -/
theorem makeExample_spec (maxContextLength : Nat) (seq : List Interaction)
    (i : Nat) (hi : i < seq.length) :
    (makeExample maxContextLength seq i).context_movie_id =
        (((seq.map (fun m => m.movie_id)).drop (i - maxContextLength)).take
            (i - (i - maxContextLength))) ++
          List.replicate
            (maxContextLength -
              (((seq.map (fun m => m.movie_id)).drop (i - maxContextLength)).take
                  (i - (i - maxContextLength))).length) 0 ∧
    (((seq.map (fun m => m.movie_id)).drop (i - maxContextLength)).take
        (i - (i - maxContextLength))).length = i - (i - maxContextLength) ∧
    i - (i - maxContextLength) ≤ maxContextLength ∧
    (makeExample maxContextLength seq i).label_movie_id =
      (seq.map (fun m => m.movie_id)).getD i 0 ∧
    (seq.map (fun m => m.movie_id)).take (i - maxContextLength) ++
        ((((seq.map (fun m => m.movie_id)).drop (i - maxContextLength)).take
            (i - (i - maxContextLength))) ++
          [(seq.map (fun m => m.movie_id)).getD i 0]) ++
        (seq.map (fun m => m.movie_id)).drop (i + 1) =
      seq.map (fun m => m.movie_id) := by
  set ids := seq.map (fun m => m.movie_id) with hids
  set st := i - maxContextLength with hst
  have hstle : st ≤ i := Nat.sub_le i maxContextLength
  have hil : i < ids.length := by simpa [hids] using hi
  have hlenw : ((ids.drop st).take (i - st)).length = i - st := by
    simp only [List.length_take, List.length_drop]
    omega
  have hgetD : ids.getD i 0 = ids[i] := by
    simp [List.getD_eq_getElem?_getD, List.getElem?_eq_getElem hil]
  refine ⟨?_, hlenw, by omega, ?_, ?_⟩
  · simp only [makeExample, hids, List.map_append, List.map_take, List.map_drop,
      List.map_replicate, padInteraction, List.length_map, List.length_take,
      List.length_drop]
  · simp only [makeExample, hgetD]
    have : (seq.getD i padInteraction).movie_id = ids[i] := by
      simp [hids, List.getD_eq_getElem?_getD, List.getElem?_eq_getElem hi]
    simpa using this
  · have h1 : ids.take st ++ (ids.drop st).take (i - st) = ids.take i := by
      rw [show i = st + (i - st) by omega, List.take_add]
      congr 2
      omega
    have h2 : ids.getD i 0 :: ids.drop (i + 1) = ids.drop i := by
      rw [hgetD]
      exact List.getElem_cons_drop ids i hil
    calc ids.take st ++ ((ids.drop st).take (i - st) ++ [ids.getD i 0]) ++ ids.drop (i + 1)
        = (ids.take st ++ (ids.drop st).take (i - st)) ++
            (ids.getD i 0 :: ids.drop (i + 1)) := by
          simp [List.append_assoc]
      _ = ids.take i ++ ids.drop i := by rw [h1, h2]
      _ = ids := List.take_append_drop i ids

/-- Being a produced example is being the example of some label index
in `range(1, len(sequence))`. -/
theorem mem_generate_examples (maxContextLength : Nat) (seq : List Interaction)
    (ex : Example)
    (hex : ex ∈ (generate_examples_from_user_sequence maxContextLength seq).1 ++
                (generate_examples_from_user_sequence maxContextLength seq).2) :
    ∃ i, 1 ≤ i ∧ i < seq.length ∧ ex = makeExample maxContextLength seq i := by
  rcases List.mem_append.mp hex with hm | hm <;>
    · rcases (genLoop_mem maxContextLength seq (List.range' 1 (seq.length - 1)) ex).mp
        (by first | exact Or.inl hm | exact Or.inr hm) with ⟨i, hi, hie⟩
      rcases List.mem_range'.mp hi with ⟨k, hk, hik⟩
      exact ⟨i, by omega, by omega, hie⟩

/-- A user whose sequence is at least the minimum length is kept by the
top-level generator, contributing exactly its own train/test examples. -/
theorem generate_examples_singleton (maxContextLength minSequenceLength : Nat)
    (seq : List Interaction) (h : minSequenceLength ≤ seq.length) :
    generate_examples_from_user_sequences maxContextLength minSequenceLength [seq] =
      generate_examples_from_user_sequence maxContextLength seq := by
  simp [generate_examples_from_user_sequences, Nat.not_lt.mpr h]

theorem user_sequence_example_counts (maxContextLength : Nat)
    (seq : List Interaction) (h : MIN_SEQUENCE_LENGTH ≤ seq.length) :
    (generate_examples_from_user_sequence maxContextLength seq).1.length =
        seq.length - 2 ∧
    (generate_examples_from_user_sequence maxContextLength seq).2.length = 1 ∧
    (generate_examples_from_user_sequence maxContextLength seq).1.length +
        (generate_examples_from_user_sequence maxContextLength seq).2.length =
      seq.length - 1 ∧
    (generate_examples_from_user_sequence maxContextLength seq).2.map
        (fun e => e.label_movie_id) =
      (seq.getLast?.map (fun m => m.movie_id)).toList ∧
    generate_examples_from_user_sequences maxContextLength MIN_SEQUENCE_LENGTH [seq] =
      generate_examples_from_user_sequence maxContextLength seq := by
  have h2 : 2 ≤ seq.length := le_trans (by norm_num [MIN_SEQUENCE_LENGTH]) h
  have hi : seq.length - 1 < seq.length := by omega
  have hil : seq.length - 1 < (seq.map (fun m => m.movie_id)).length := by
    simpa using hi
  have hlabel := (makeExample_spec maxContextLength seq (seq.length - 1) hi).2.2.2.1
  refine ⟨?_, ?_, ?_, ?_, generate_examples_singleton _ _ _ h⟩ <;>
    rw [generate_examples_split maxContextLength seq h2]
  · simp [List.length_range']
  · simp
  · simp [List.length_range']
    omega
  · rw [List.getLast?_eq_getElem?, List.getElem?_eq_getElem hi]
    simp only [List.map_cons, List.map_nil, hlabel, Option.map_some', Option.toList_some]
    rw [List.getD_eq_getElem?_getD, List.getElem?_eq_getElem hil]
    simp

theorem user_sequence_example_counts_witness :
    MIN_SEQUENCE_LENGTH ≤ seqW3.length ∧
    ((generate_examples_from_user_sequence 3 seqW3).1.length = seqW3.length - 2 ∧
     (generate_examples_from_user_sequence 3 seqW3).2.length = 1 ∧
     (generate_examples_from_user_sequence 3 seqW3).1.length +
         (generate_examples_from_user_sequence 3 seqW3).2.length =
       seqW3.length - 1 ∧
     (generate_examples_from_user_sequence 3 seqW3).2.map
         (fun e => e.label_movie_id) =
       (seqW3.getLast?.map (fun m => m.movie_id)).toList ∧
     generate_examples_from_user_sequences 3 MIN_SEQUENCE_LENGTH [seqW3] =
       generate_examples_from_user_sequence 3 seqW3) :=
  ⟨by decide, user_sequence_example_counts 3 seqW3 (by decide)⟩

theorem context_not_left_padded :
    ((generate_examples_from_user_sequence 3 seqW4).1.map
        (fun e => e.context_movie_id)).head? = some [10, 0, 0] ∧
    sentinelsPrecedeReals [10, 0, 0] = false := by decide

/-- C2 (amended): every produced context has length exactly
`MAX_CONTEXT_LENGTH`, and when the true history before the label is
shorter it is RIGHT-padded with sentinel zeros: the context is a
contiguous window of the user's real movie ids followed by the sentinel
entries. -/
theorem context_length_and_right_padding (maxContextLength : Nat)
    (seq : List Interaction) (ex : Example)
    (hex : ex ∈ (generate_examples_from_user_sequence maxContextLength seq).1 ++
                (generate_examples_from_user_sequence maxContextLength seq).2) :
    ex.context_movie_id.length = maxContextLength ∧
    ∃ w : List Nat, w <:+: seq.map (fun m => m.movie_id) ∧
      ex.context_movie_id = w ++ List.replicate (maxContextLength - w.length) 0 := by
  rcases mem_generate_examples maxContextLength seq ex hex with ⟨i, _, h2, hie⟩
  rcases makeExample_spec maxContextLength seq i h2 with
    ⟨hctx, hlenw, hle, _, hdecomp⟩
  subst hie
  refine ⟨?_, _, ⟨(seq.map (fun m => m.movie_id)).take (i - maxContextLength),
    (seq.map (fun m => m.movie_id)).getD i 0 ::
      (seq.map (fun m => m.movie_id)).drop (i + 1), ?_⟩, hctx⟩
  · rw [hctx]
    simp only [List.length_append, List.length_replicate, hlenw]
    omega
  · simpa [List.append_assoc] using hdecomp

theorem context_length_and_right_padding_witness :
    (Example.mk [10, 0, 0] 20 ∈
        (generate_examples_from_user_sequence 3 seqW4).1 ++
          (generate_examples_from_user_sequence 3 seqW4).2) ∧
    ((Example.mk [10, 0, 0] 20).context_movie_id.length = 3 ∧
     ∃ w : List Nat, w <:+: seqW4.map (fun m => m.movie_id) ∧
       (Example.mk [10, 0, 0] 20).context_movie_id =
         w ++ List.replicate (3 - w.length) 0) :=
  ⟨by decide,
   context_length_and_right_padding 3 seqW4 (Example.mk [10, 0, 0] 20) (by decide)⟩

/-- C3 counterexample: on the spec's scenario (one user, items
10, 20, 30, 40 at increasing timestamps, `MAX_CONTEXT_LENGTH = 3`,
`MIN_SEQUENCE_LENGTH = 3`) the pipeline does not produce the claimed
single left-padded train example `([0, 10, 20], 30)`: it produces two
train examples, and they are right-padded. -/
theorem example_scenario_counterexample :
    generate_examples_from_user_sequences 3 3
        ((get_movie_sequence_per_user scenarioRows).map (fun p => p.2)) ≠
      ([Example.mk [0, 10, 20] 30], [Example.mk [10, 20, 30] 40]) := by decide

theorem example_scenario_actual :
    generate_examples_from_user_sequences 3 3
        ((get_movie_sequence_per_user scenarioRows).map (fun p => p.2)) =
      ([Example.mk [10, 0, 0] 20, Example.mk [10, 20, 0] 30],
       [Example.mk [10, 20, 30] 40]) := by decide

/-- C8: for every produced example (train or test), the context's
non-sentinel (non-zero) movie ids followed by the example's label form a
contiguous subsequence of the user's timestamp-sorted id sequence, the
label being the id immediately after the context window. The sentinel 0
never occurs as a real movie id in the dataset, which the hypothesis
records. -/
theorem round_trip_contiguous (maxContextLength : Nat) (seq : List Interaction)
    (hnz : ∀ m ∈ seq, m.movie_id ≠ 0) (ex : Example)
    (hex : ex ∈ (generate_examples_from_user_sequence maxContextLength seq).1 ++
                (generate_examples_from_user_sequence maxContextLength seq).2) :
    ex.context_movie_id.filter (fun m => m != 0) ++ [ex.label_movie_id] <:+:
      seq.map (fun m => m.movie_id) := by
  rcases mem_generate_examples maxContextLength seq ex hex with ⟨i, _, h2, hie⟩
  rcases makeExample_spec maxContextLength seq i h2 with
    ⟨hctx, hlenw, hle, hlabel, hdecomp⟩
  subst hie
  set ids := seq.map (fun m => m.movie_id) with hids
  set st := i - maxContextLength with hst
  set w := (ids.drop st).take (i - st) with hw
  have hwnz : ∀ x ∈ w, x ≠ 0 := by
    intro x hx
    rcases List.mem_map.mp (List.mem_of_mem_drop (List.mem_of_mem_take hx)) with
      ⟨m, hm, hmx⟩
    exact hmx ▸ hnz m hm
  have hfil : (w ++ List.replicate (maxContextLength - w.length) 0).filter
      (fun m => m != 0) = w := by
    rw [List.filter_append,
      List.filter_eq_self.mpr (fun a ha => by simpa using hwnz a ha)]
    simp [List.filter_replicate]
  rw [hctx, hfil, hlabel]
  exact ⟨_, _, hdecomp⟩

theorem round_trip_contiguous_witness :
    (∀ m ∈ seqW4, m.movie_id ≠ 0) ∧
    (Example.mk [10, 0, 0] 20 ∈
        (generate_examples_from_user_sequence 3 seqW4).1 ++
          (generate_examples_from_user_sequence 3 seqW4).2) ∧
    ((Example.mk [10, 0, 0] 20).context_movie_id.filter (fun m => m != 0) ++
        [(Example.mk [10, 0, 0] 20).label_movie_id] <:+:
      seqW4.map (fun m => m.movie_id)) :=
  ⟨by decide, by decide,
   round_trip_contiguous 3 seqW4 (by decide) (Example.mk [10, 0, 0] 20) (by decide)⟩

/-- If the pattern is a prefix of `X ++ pat ++ r` with `X` nonempty,
then it already is a prefix of `X` followed by the pattern minus its
last character: an occurrence strictly before a full occurrence cannot
use the full occurrence's final character. -/
theorem patternShift (pat X r : List Char) (hX : X ≠ [])
    (h : pat <+: X ++ (pat ++ r)) : pat <+: X ++ pat.dropLast := by
  have hXlen : 1 ≤ X.length := List.length_pos.mpr hX
  have hk : pat.length - X.length ≤ pat.length - 1 := by omega
  have htake : (X ++ (pat ++ r)).take pat.length =
      (X ++ pat.dropLast).take pat.length := by
    rw [List.take_append_eq_append_take, List.take_append_eq_append_take]
    rw [List.take_append_eq_append_take,
      show pat.length - X.length - pat.length = 0 by omega,
      List.take_zero, List.append_nil, List.dropLast_eq_take, List.take_take,
      min_eq_left hk]
  have hpeq : pat = (X ++ (pat ++ r)).take pat.length := by
    rcases h with ⟨t, ht⟩
    rw [← ht, List.take_left]
  have hpeq2 : pat = (X ++ pat.dropLast).take pat.length := hpeq.trans htake
  nth_rewrite 1 [hpeq2]
  exact ⟨(X ++ pat.dropLast).drop pat.length, List.take_append_drop _ _⟩

theorem hasInfixB_cons_false {pat : List Char} {c : Char} {rest : List Char}
    (h : hasInfixB pat (c :: rest) = false) :
    pat.isPrefixOf (c :: rest) = false ∧ hasInfixB pat rest = false := by
  simpa [hasInfixB] using h

/-- When the fence-tag does not occur inside `pre` (nor straddling into
the tag that follows), the search skips `pre` entirely. -/
theorem searchTool_append (pre rest' : List Char)
    (h : hasInfixB toolOpen (pre ++ toolOpen.dropLast) = false) :
    searchTool (pre ++ (toolOpen ++ rest')) = searchTool (toolOpen ++ rest') := by
  induction pre with
  | nil => rfl
  | cons c pre' ih =>
    rcases hasInfixB_cons_false (by simpa using h) with ⟨hp, hrest⟩
    have hnp : toolOpen.isPrefixOf ((c :: pre') ++ (toolOpen ++ rest')) = false := by
      by_contra hcon
      have hpr : toolOpen <+: (c :: pre') ++ (toolOpen ++ rest') :=
        List.isPrefixOf_iff_prefix.mp (by
          cases hval : toolOpen.isPrefixOf ((c :: pre') ++ (toolOpen ++ rest')) with
          | true => rfl
          | false => exact absurd hval hcon)
      have := patternShift toolOpen (c :: pre') rest' (by simp) hpr
      rw [← List.isPrefixOf_iff_prefix] at this
      rw [show (c :: pre') ++ toolOpen.dropLast = c :: (pre' ++ toolOpen.dropLast)
        from rfl] at this
      rw [hp] at this
      exact Bool.noConfusion this
    simp only [List.cons_append] at hnp ⊢
    simp only [searchTool, hnp, Bool.false_eq_true, if_false]
    exact ih hrest

/-- When the closing literal does not occur inside `cap` (nor straddling
into the closing literal that follows), the lazy capture is exactly
`cap`. -/
theorem findClose_hit (cap rest : List Char)
    (h : hasInfixB closeMark (cap ++ closeMark.dropLast) = false) :
    findClose (cap ++ (closeMark ++ rest)) = some cap := by
  induction cap with
  | nil =>
    have hpre : closeMark.isPrefixOf (closeMark ++ rest) = true :=
      List.isPrefixOf_iff_prefix.mpr ⟨_, rfl⟩
    rw [show ([] : List Char) ++ (closeMark ++ rest) = closeMark ++ rest from rfl]
    rw [show closeMark ++ rest = '\n' :: ("```".toList ++ rest) from rfl] at hpre ⊢
    simp only [findClose, hpre, if_true]
  | cons c cap' ih =>
    rcases hasInfixB_cons_false (by simpa using h) with ⟨hp, hrest⟩
    have hnp : closeMark.isPrefixOf ((c :: cap') ++ (closeMark ++ rest)) = false := by
      by_contra hcon
      have hpr : closeMark <+: (c :: cap') ++ (closeMark ++ rest) :=
        List.isPrefixOf_iff_prefix.mp (by
          cases hval : closeMark.isPrefixOf ((c :: cap') ++ (closeMark ++ rest)) with
          | true => rfl
          | false => exact absurd hval hcon)
      have := patternShift closeMark (c :: cap') rest (by simp) hpr
      rw [← List.isPrefixOf_iff_prefix] at this
      rw [show (c :: cap') ++ closeMark.dropLast = c :: (cap' ++ closeMark.dropLast)
        from rfl] at this
      rw [hp] at this
      exact Bool.noConfusion this
    simp only [List.cons_append] at hnp ⊢
    simp only [findClose, hnp, Bool.false_eq_true, if_false, ih hrest]

theorem drop12_marker (rest' : List Char) : (toolOpen ++ rest').drop 12 = rest' := by
  rw [show (12 : Nat) = toolOpen.length from rfl, List.drop_left]

/-- Unfolding of the search at a position where the fence-tag matches. -/
theorem searchTool_marker_hit (rest' cap : List Char)
    (h : tryNl (rest'.takeWhile pyWs) (rest'.dropWhile pyWs)
        (rest'.takeWhile pyWs).length = some cap) :
    searchTool (toolOpen ++ rest') = some cap := by
  have hpre : toolOpen.isPrefixOf (toolOpen ++ rest') = true :=
    List.isPrefixOf_iff_prefix.mpr ⟨_, rfl⟩
  have hdrop := drop12_marker rest'
  rw [show toolOpen ++ rest' = '`' :: ("``tool_code".toList ++ rest') from rfl]
    at hpre hdrop ⊢
  simp only [searchTool, hpre, if_true, hdrop, h]

/-- Inversion: a successful lazy capture splits its input at the first
closing literal. -/
theorem findClose_some (l : List Char) (cap : List Char)
    (h : findClose l = some cap) : ∃ rest, l = cap ++ (closeMark ++ rest) := by
  induction l generalizing cap with
  | nil => simp [findClose] at h
  | cons c rest' ih =>
    cases hp : closeMark.isPrefixOf (c :: rest') with
    | true =>
      rcases List.isPrefixOf_iff_prefix.mp hp with ⟨t, ht⟩
      simp only [findClose, hp, if_true] at h
      obtain rfl : cap = [] := by simpa using h.symm
      exact ⟨t, by rw [← ht, List.nil_append]⟩
    | false =>
      simp only [findClose, hp, Bool.false_eq_true, if_false] at h
      cases hfc : findClose rest' with
      | none => rw [hfc] at h; exact absurd h (by simp)
      | some cap' =>
        rw [hfc] at h
        obtain rfl : cap = c :: cap' := by simpa using h.symm
        rcases ih cap' hfc with ⟨rest₂, hr⟩
        exact ⟨rest₂, by rw [List.cons_append, hr]⟩

/-- Inversion: a successful backtracking step names the newline position
it used inside the whitespace run. -/
theorem tryNl_some (run tail : List Char) (f : Nat) (cap : List Char)
    (h : tryNl run tail f = some cap) :
    ∃ i, i < f ∧ run.getD i ' ' = '\n' ∧
      findClose (run.drop (i + 1) ++ tail) = some cap := by
  induction f with
  | zero => simp [tryNl] at h
  | succ i ih =>
    simp only [tryNl] at h
    by_cases hc : run.getD i ' ' = '\n'
    · rw [if_pos hc] at h
      cases hfc : findClose (run.drop (i + 1) ++ tail) with
      | some cap' =>
        rw [hfc] at h
        obtain rfl : cap = cap' := by simpa using h.symm
        exact ⟨i, Nat.lt_succ_self i, hc, hfc⟩
      | none =>
        rw [hfc] at h
        rcases ih h with ⟨j, hj, hcj, hfj⟩
        exact ⟨j, Nat.lt_succ_of_lt hj, hcj, hfj⟩
    · rw [if_neg hc] at h
      rcases ih h with ⟨j, hj, hcj, hfj⟩
      exact ⟨j, Nat.lt_succ_of_lt hj, hcj, hfj⟩

/-- Inversion: a successful search splits its input at an occurrence of
the fence-tag whose remainder completes the pattern. -/
theorem searchTool_some (l : List Char) (cap : List Char)
    (h : searchTool l = some cap) :
    ∃ pre rest, l = pre ++ (toolOpen ++ rest) ∧
      tryNl (rest.takeWhile pyWs) (rest.dropWhile pyWs)
        (rest.takeWhile pyWs).length = some cap := by
  induction l with
  | nil => simp [searchTool] at h
  | cons c rest' ih =>
    cases hp : toolOpen.isPrefixOf (c :: rest') with
    | true =>
      rcases List.isPrefixOf_iff_prefix.mp hp with ⟨t, ht⟩
      have hdrop : (c :: rest').drop 12 = t := by rw [← ht]; exact drop12_marker t
      simp only [searchTool, hp, if_true] at h
      cases hys : tryNl (((c :: rest').drop 12).takeWhile pyWs)
          (((c :: rest').drop 12).dropWhile pyWs)
          ((((c :: rest').drop 12).takeWhile pyWs)).length with
      | some cap' =>
        rw [hys] at h
        obtain rfl : cap = cap' := by simpa using h.symm
        rw [hdrop] at hys
        exact ⟨[], t, by rw [← ht, List.nil_append], hys⟩
      | none =>
        rw [hys] at h
        rcases ih h with ⟨pre₁, rest₁, hl₁, ht₁⟩
        exact ⟨c :: pre₁, rest₁, by rw [List.cons_append, hl₁], ht₁⟩
    | false =>
      simp only [searchTool, hp, Bool.false_eq_true, if_false] at h
      rcases ih h with ⟨pre₁, rest₁, hl₁, ht₁⟩
      exact ⟨c :: pre₁, rest₁, by rw [List.cons_append, hl₁], ht₁⟩

/-- C4 counterexample: on the text consisting of exactly one fenced
block whose payload is print(f(1,2)), `extract_tool_call` returns the
whole stripped payload "print(f(1,2))", not the claimed "f(1,2)". -/
theorem extract_tool_call_counterexample :
    extract_tool_call "```tool_code\nprint(f(1,2))\n```" = some "print(f(1,2))" ∧
    extract_tool_call "```tool_code\nprint(f(1,2))\n```" ≠ some "f(1,2)" := by
  decide

/-- C4 (amended): for any text made of a prefix in which the fence-tag
does not occur (nor straddle into the block's own tag), a
`tool_code`-fenced block with payload print(f(1,2)), and any suffix,
`extract_tool_call` returns the stripped payload "print(f(1,2))"; and
whenever it returns a value at all, its input decomposes as a fenced
block (whitespace after the tag, a newline, the payload and the closing
fence), so a text containing no fenced block yields None. -/
theorem extract_tool_call_spec :
    (∀ pre post : String,
        hasInfixB toolOpen (pre.toList ++ toolOpen.dropLast) = false →
        extract_tool_call (pre ++ "```tool_code\nprint(f(1,2))\n```" ++ post) =
          some "print(f(1,2))") ∧
    (∀ text r : String, extract_tool_call text = some r →
        ∃ pre ws payload post : List Char, ws.all pyWs = true ∧
          text.toList =
            pre ++ (toolOpen ++ (ws ++ ('\n' :: (payload ++ (closeMark ++ post)))))) := by
  constructor
  · intro pre post h
    have hmid : ("```tool_code\nprint(f(1,2))\n```" : String).toList =
        toolOpen ++ ('\n' :: ("print(f(1,2))".toList ++ closeMark)) := by decide
    have htl : (pre ++ "```tool_code\nprint(f(1,2))\n```" ++ post).toList =
        pre.toList ++ (toolOpen ++ ('\n' ::
          ("print(f(1,2))".toList ++ (closeMark ++ post.toList)))) := by
      calc (pre ++ "```tool_code\nprint(f(1,2))\n```" ++ post).toList
          = pre.toList ++
              (("```tool_code\nprint(f(1,2))\n```" : String).toList ++ post.toList) := by
            simp [String.toList, String.data_append]
        _ = pre.toList ++ (toolOpen ++ ('\n' ::
              ("print(f(1,2))".toList ++ (closeMark ++ post.toList)))) := by
            rw [hmid]
            simp [List.append_assoc]
    have hhit : tryNl
        (('\n' :: ("print(f(1,2))".toList ++ (closeMark ++ post.toList))).takeWhile pyWs)
        (('\n' :: ("print(f(1,2))".toList ++ (closeMark ++ post.toList))).dropWhile pyWs)
        ((('\n' :: ("print(f(1,2))".toList ++
            (closeMark ++ post.toList))).takeWhile pyWs)).length =
        some "print(f(1,2))".toList := by
      have hrun : ('\n' :: ("print(f(1,2))".toList ++
          (closeMark ++ post.toList))).takeWhile pyWs = ['\n'] := rfl
      have hdw : ('\n' :: ("print(f(1,2))".toList ++
          (closeMark ++ post.toList))).dropWhile pyWs =
          "print(f(1,2))".toList ++ (closeMark ++ post.toList) := rfl
      have hfc := findClose_hit "print(f(1,2))".toList post.toList (by decide)
      have hstep : tryNl ['\n']
          ("print(f(1,2))".toList ++ (closeMark ++ post.toList)) 1 =
          match findClose ("print(f(1,2))".toList ++ (closeMark ++ post.toList)) with
          | some cap => some cap
          | none => none := rfl
      rw [hrun, hdw]
      show tryNl ['\n'] ("print(f(1,2))".toList ++ (closeMark ++ post.toList)) 1 =
        some "print(f(1,2))".toList
      rw [hstep, hfc]
    unfold extract_tool_call
    rw [htl, searchTool_append _ _ h, searchTool_marker_hit _ _ hhit]
    decide
  · intro text r h
    unfold extract_tool_call at h
    cases hs : searchTool text.toList with
    | none => rw [hs] at h; exact absurd h (by simp)
    | some cap =>
      rcases searchTool_some _ _ hs with ⟨pre, rest, hl, htry⟩
      rcases tryNl_some _ _ _ _ htry with ⟨i, hif, hnl, hfcl⟩
      rcases findClose_some _ _ hfcl with ⟨rest₂, hfc2⟩
      have hilen : i < (rest.takeWhile pyWs).length := hif
      refine ⟨pre, (rest.takeWhile pyWs).take i, cap, rest₂, ?_, ?_⟩
      · rw [List.all_eq_true]
        intro x hx
        exact List.mem_takeWhile_imp (List.mem_of_mem_take hx)
      · rw [hl]
        have hget : (rest.takeWhile pyWs)[i] = '\n' := by
          rw [List.getD_eq_getElem?_getD, List.getElem?_eq_getElem hilen] at hnl
          simpa using hnl
        have hsplit : rest.takeWhile pyWs =
            (rest.takeWhile pyWs).take i ++
              ('\n' :: (rest.takeWhile pyWs).drop (i + 1)) := by
          calc rest.takeWhile pyWs
              = (rest.takeWhile pyWs).take i ++ (rest.takeWhile pyWs).drop i :=
                (List.take_append_drop i _).symm
            _ = (rest.takeWhile pyWs).take i ++
                  ((rest.takeWhile pyWs)[i] :: (rest.takeWhile pyWs).drop (i + 1)) := by
                rw [List.getElem_cons_drop]
            _ = (rest.takeWhile pyWs).take i ++
                  ('\n' :: (rest.takeWhile pyWs).drop (i + 1)) := by rw [hget]
        have hrest : rest = (rest.takeWhile pyWs).take i ++
            ('\n' :: (cap ++ (closeMark ++ rest₂))) := by
          calc rest
              = rest.takeWhile pyWs ++ rest.dropWhile pyWs :=
                (List.takeWhile_append_dropWhile pyWs rest).symm
            _ = ((rest.takeWhile pyWs).take i ++
                  ('\n' :: (rest.takeWhile pyWs).drop (i + 1))) ++
                  rest.dropWhile pyWs := by rw [← hsplit]
            _ = (rest.takeWhile pyWs).take i ++
                  ('\n' :: ((rest.takeWhile pyWs).drop (i + 1) ++
                    rest.dropWhile pyWs)) := by simp [List.append_assoc]
            _ = (rest.takeWhile pyWs).take i ++
                  ('\n' :: (cap ++ (closeMark ++ rest₂))) := by rw [hfc2]
        exact congrArg (fun x => pre ++ (toolOpen ++ x)) hrest

theorem extract_tool_call_spec_witness :
    (hasInfixB toolOpen ("hello ".toList ++ toolOpen.dropLast) = false ∧
     extract_tool_call ("hello " ++ "```tool_code\nprint(f(1,2))\n```" ++ " bye") =
       some "print(f(1,2))") ∧
    (extract_tool_call "```tool_code\nx\n```" = some "x" ∧
     ∃ pre ws payload post : List Char, ws.all pyWs = true ∧
       ("```tool_code\nx\n```" : String).toList =
         pre ++ (toolOpen ++ (ws ++ ('\n' :: (payload ++ (closeMark ++ post)))))) :=
  ⟨⟨by decide, extract_tool_call_spec.1 "hello " " bye" (by decide)⟩,
   ⟨by decide, extract_tool_call_spec.2 "```tool_code\nx\n```" "x" (by decide)⟩⟩

/-- C6 counterexample: on the code string `raise SystemExit` eval raises
SyntaxError (it is a statement) and exec then raises SystemExit, which
derives from BaseException but not from Exception; `except Exception`
does not catch it, so `capture_code_output` propagates that exception
instead of returning an error string. -/
theorem capture_code_output_propagates :
    capture_code_output ⟨.notExpr, some ⟨false, "SystemExit"⟩, ""⟩ =
      .error ⟨false, "SystemExit"⟩ := rfl

/-- C6 (amended): every exception that `capture_code_output` propagates
is one not deriving from `Exception` (such as SystemExit); every raised
exception deriving from `Exception` is caught and returned as the
descriptive error string; and when evaluation or execution succeeds the
function returns the captured stdout if it contains a non-whitespace
character, otherwise the evaluated expression's value, otherwise None
(for statements). -/
theorem capture_code_output_spec (b : CodeBehavior) :
    (∀ e : PyExc, capture_code_output b = .error e →
        e.derivesFromException = false) ∧
    (∀ e : PyExc, e.derivesFromException = true →
        (b.evalOutcome = .raises e ∨
          (b.evalOutcome = .notExpr ∧ b.execExc = some e)) →
        capture_code_output b =
          .ok (.errorString ("Error during code execution: " ++ e.msg))) ∧
    (∀ v : PyVal, b.evalOutcome = .value v →
        capture_code_output b =
          .ok (if stripTruthy b.stdout then .stdoutText b.stdout
               else .value v)) ∧
    (b.evalOutcome = .notExpr → b.execExc = none →
        capture_code_output b =
          .ok (if stripTruthy b.stdout then .stdoutText b.stdout
               else .value .pynone)) := by
  obtain ⟨eo, ex, so⟩ := b
  refine ⟨?_, ?_, ?_, ?_⟩
  · intro e he
    cases eo with
    | value v =>
      cases hst : stripTruthy so <;> simp [capture_code_output, hst] at he
    | raises e' =>
      cases hd : e'.derivesFromException with
      | false =>
        simp [capture_code_output, hd] at he
        rw [← he]
        exact hd
      | true => simp [capture_code_output, hd] at he
    | notExpr =>
      cases ex with
      | none =>
        cases hst : stripTruthy so <;> simp [capture_code_output, hst] at he
      | some e' =>
        cases hd : e'.derivesFromException with
        | false =>
          simp [capture_code_output, hd] at he
          rw [← he]
          exact hd
        | true => simp [capture_code_output, hd] at he
  · intro e hd hcase
    rcases hcase with hr | ⟨hn, hex⟩
    · simp only at hr
      subst hr
      simp [capture_code_output, hd]
    · simp only at hn hex
      subst hn
      subst hex
      simp [capture_code_output, hd]
  · intro v hv
    simp only at hv
    subst hv
    simp only [capture_code_output]
    cases hst : stripTruthy so <;> simp [hst]
  · intro h1 h2
    simp only at h1 h2
    subst h1
    subst h2
    simp only [capture_code_output]
    cases hst : stripTruthy so <;> simp [hst]

theorem capture_code_output_spec_witness :
    ((⟨true, "boom"⟩ : PyExc).derivesFromException = true ∧
     capture_code_output ⟨.raises ⟨true, "boom"⟩, none, ""⟩ =
       .ok (.errorString "Error during code execution: boom")) ∧
    (capture_code_output ⟨.value (.pyint 7), none, "out\n"⟩ =
       .ok (.stdoutText "out\n")) :=
  ⟨⟨rfl, (capture_code_output_spec ⟨.raises ⟨true, "boom"⟩, none, ""⟩).2.1
      ⟨true, "boom"⟩ rfl (Or.inl rfl)⟩,
   by
    have h := (capture_code_output_spec ⟨.value (.pyint 7), none, "out\n"⟩).2.2.1
      (.pyint 7) rfl
    simpa using h⟩

/-- C10: when the executed code writes only whitespace (for instance a
single newline) to stdout, `capture_code_output` discards that output:
it returns the evaluated expression's value, or None when the code was
statements — whitespace-only stdout behaves like no stdout. -/
theorem whitespace_stdout_discarded (b : CodeBehavior)
    (hws : b.stdout.toList.all pyWs = true) :
    (∀ v : PyVal, b.evalOutcome = .value v →
        capture_code_output b = .ok (.value v)) ∧
    (b.evalOutcome = .notExpr → b.execExc = none →
        capture_code_output b = .ok (.value .pynone)) := by
  have hst : stripTruthy b.stdout = false := by
    simp only [stripTruthy, List.any_eq_false]
    intro c hc
    simp [List.all_eq_true.mp hws c hc]
  constructor
  · intro v hv
    simp [capture_code_output, hv, hst]
  · intro h1 h2
    simp [capture_code_output, h1, h2, hst]

theorem whitespace_stdout_discarded_witness :
    (("\n" : String).toList.all pyWs = true) ∧
    capture_code_output ⟨.value (.pyint 3), none, "\n"⟩ =
      .ok (.value (.pyint 3)) :=
  ⟨by decide,
   (whitespace_stdout_discarded ⟨.value (.pyint 3), none, "\n"⟩ (by decide)).1
     (.pyint 3) rfl⟩

/-- C5 counterexample: the call identifiers come from
`random.choices`, which draws independently for every call and is never
checked against earlier identifiers, so two calls CAN receive the same
identifier (probability 62 to the minus 9 per pair). Modelling the
random draws as an explicit supply, the possible outcome in which the
supply repeats itself produces two result blocks carrying the same
identifier, refuting guaranteed distinctness. -/
theorem call_ids_not_guaranteed_distinct :
    callIds (try_parse_funccall toolsW (fun _ => "aaaaaaaaa")
        decodeTwoKnown 5 [5]) = ["aaaaaaaaa", "aaaaaaaaa"] ∧
    ¬ (callIds (try_parse_funccall toolsW (fun _ => "aaaaaaaaa")
        decodeTwoKnown 5 [5])).Pairwise (· ≠ ·) := by
  constructor
  · rfl
  · rw [show callIds (try_parse_funccall toolsW (fun _ => "aaaaaaaaa")
        decodeTwoKnown 5 [5]) = ["aaaaaaaaa", "aaaaaaaaa"] from rfl]
    decide

/-- C5 (amended): for a single structured call: an unknown tool name is
skipped and the result list is empty; a registered tool returning a
value yields exactly one result block — the open control token, the
body with the tool's return value and the identifier drawn from the
generator for that call, and the close token. The identifier is freshly
drawn for each call but never compared with previously generated ones,
so it is distinct from them only with high probability. -/
theorem try_parse_funccall_single_call (tools : ToolTable) (ids : Nat → String)
    (detok : List Int → Except Unit Json) (tcid : Int) (response : List Int)
    (pos : Nat) (hpos : response.findIdx? (fun t => t == tcid) = some pos)
    (args : List (String × Json)) :
    (tools "unknown_tool" = none →
      detok (response.drop (pos + 1)) =
        .ok (.arr [.obj [("name", .str "unknown_tool"),
                         ("arguments", .obj args)]]) →
      try_parse_funccall tools ids detok tcid response = []) ∧
    (∀ f v, tools "known_tool" = some f → f args = .ok v →
      detok (response.drop (pos + 1)) =
        .ok (.arr [.obj [("name", .str "known_tool"),
                         ("arguments", .obj args)]]) →
      try_parse_funccall tools ids detok tcid response =
        [.toolResultsOpen, .content v (ids 0), .toolResultsClose]) := by
  constructor
  · intro hun hdec
    simp [try_parse_funccall, hpos, hdec, isObjB, processCalls, lookupKey,
      nameKey, hun]
  · intro f v hkn happ hdec
    simp [try_parse_funccall, hpos, hdec, isObjB, processCalls, lookupKey,
      nameKey, hkn, happ]

theorem try_parse_funccall_single_call_witness :
    (try_parse_funccall toolsW (fun _ => "id0ABCDEF") decodeUnknown 5 [5] = []) ∧
    (try_parse_funccall toolsW (fun _ => "id0ABCDEF") decodeKnown 5 [5] =
      [.toolResultsOpen, .content (.str "ok") "id0ABCDEF", .toolResultsClose]) :=
  ⟨(try_parse_funccall_single_call toolsW (fun _ => "id0ABCDEF") decodeUnknown
      5 [5] 0 rfl []).1 rfl rfl,
   (try_parse_funccall_single_call toolsW (fun _ => "id0ABCDEF") decodeKnown
      5 [5] 0 rfl [("x", .num 1)]).2
     (fun _ => .ok (.str "ok")) (.str "ok") rfl rfl rfl⟩

/-- C7 counterexample: a payload whose single call object is missing
the required arguments key while naming an UNREGISTERED tool: the code
skips the call (the `continue` happens before `call["arguments"]` is
ever read), raises nothing and returns the EMPTY list — not the
original response as the sole element, as the claim states for every
missing-key payload. -/
theorem missing_arguments_unknown_tool_gives_empty :
    try_parse_funccall toolsW (fun _ => "x") decodeUnknownNoArgs 5 [5] = [] ∧
    try_parse_funccall toolsW (fun _ => "x") decodeUnknownNoArgs 5 [5] ≠
      [.response] :=
  ⟨rfl, by simp [show try_parse_funccall toolsW (fun _ => "x")
      decodeUnknownNoArgs 5 [5] = [] from rfl]⟩

/-- C7 (amended): with the `[TOOL_CALLS]` marker present,
`try_parse_funccall` degrades to returning the original response as the
sole element — propagating nothing — on every error case the except
clause covers: malformed JSON; a payload that is not a list of objects;
a call object missing the name key; a call naming a KNOWN tool but
missing the arguments key; a known call whose arguments value is not an
object; and a known call whose tool raises. The one deviation from the
claim as stated: a call missing its arguments key whose name is unknown
is skipped before arguments is read, so the function returns the empty
list instead of the response. -/
theorem try_parse_funccall_error_handling (tools : ToolTable)
    (ids : Nat → String) (detok : List Int → Except Unit Json) (tcid : Int)
    (response : List Int) (pos : Nat)
    (hpos : response.findIdx? (fun t => t == tcid) = some pos) :
    (detok (response.drop (pos + 1)) = .error () →
      try_parse_funccall tools ids detok tcid response = [.response]) ∧
    (∀ j, detok (response.drop (pos + 1)) = .ok j → isListOfObjs j = false →
      try_parse_funccall tools ids detok tcid response = [.response]) ∧
    (∀ fields, detok (response.drop (pos + 1)) = .ok (.arr [.obj fields]) →
      lookupKey fields "name" = none →
      try_parse_funccall tools ids detok tcid response = [.response]) ∧
    (∀ fields nm f, detok (response.drop (pos + 1)) = .ok (.arr [.obj fields]) →
      lookupKey fields "name" = some (.str nm) → tools nm = some f →
      lookupKey fields "arguments" = none →
      try_parse_funccall tools ids detok tcid response = [.response]) ∧
    (∀ fields nm f argsJ, detok (response.drop (pos + 1)) =
        .ok (.arr [.obj fields]) →
      lookupKey fields "name" = some (.str nm) → tools nm = some f →
      lookupKey fields "arguments" = some argsJ → isObjB argsJ = false →
      try_parse_funccall tools ids detok tcid response = [.response]) ∧
    (∀ fields nm f args e, detok (response.drop (pos + 1)) =
        .ok (.arr [.obj fields]) →
      lookupKey fields "name" = some (.str nm) → tools nm = some f →
      lookupKey fields "arguments" = some (.obj args) → f args = .error e →
      try_parse_funccall tools ids detok tcid response = [.response]) := by
  refine ⟨?_, ?_, ?_, ?_, ?_, ?_⟩
  · intro hdec
    simp [try_parse_funccall, hpos, hdec]
  · intro j hdec hno
    cases j <;> simp_all [try_parse_funccall, hpos, isListOfObjs]
  · intro fields hdec hname
    simp [try_parse_funccall, hpos, hdec, isObjB, processCalls, hname]
  · intro fields nm f hdec hname htool hargs
    simp [try_parse_funccall, hpos, hdec, isObjB, processCalls, hname,
      nameKey, htool, hargs]
  · intro fields nm f argsJ hdec hname htool hargs hno
    cases argsJ <;> simp_all [try_parse_funccall, hpos, isObjB, processCalls,
      nameKey]
  · intro fields nm f args e hdec hname htool hargs hraise
    simp [try_parse_funccall, hpos, hdec, isObjB, processCalls, hname,
      nameKey, htool, hargs, hraise]

theorem try_parse_funccall_error_handling_witness :
    (try_parse_funccall toolsW (fun _ => "x") decodeBad 5 [5] = [.response]) ∧
    (try_parse_funccall toolsW (fun _ => "x") decodeNotList 5 [5] =
      [.response]) ∧
    (try_parse_funccall toolsW (fun _ => "x") decodeMissingName 5 [5] =
      [.response]) ∧
    (try_parse_funccall toolsW (fun _ => "x") decodeKnownNoArgs 5 [5] =
      [.response]) ∧
    (try_parse_funccall toolsW (fun _ => "x") decodeBadArgsType 5 [5] =
      [.response]) ∧
    (try_parse_funccall toolsW (fun _ => "x") decodeToolRaises 5 [5] =
      [.response]) :=
  ⟨(try_parse_funccall_error_handling toolsW (fun _ => "x") decodeBad
      5 [5] 0 rfl).1 rfl,
   (try_parse_funccall_error_handling toolsW (fun _ => "x") decodeNotList
      5 [5] 0 rfl).2.1 (.num 3) rfl rfl,
   (try_parse_funccall_error_handling toolsW (fun _ => "x") decodeMissingName
      5 [5] 0 rfl).2.2.1 [("arguments", .obj [])] rfl rfl,
   (try_parse_funccall_error_handling toolsW (fun _ => "x") decodeKnownNoArgs
      5 [5] 0 rfl).2.2.2.1 [("name", .str "known_tool")] "known_tool"
      (fun _ => .ok (.str "ok")) rfl rfl rfl rfl,
   (try_parse_funccall_error_handling toolsW (fun _ => "x") decodeBadArgsType
      5 [5] 0 rfl).2.2.2.2.1 [("name", .str "known_tool"), ("arguments", .num 1)]
      "known_tool" (fun _ => .ok (.str "ok")) (.num 1) rfl rfl rfl rfl rfl,
   (try_parse_funccall_error_handling toolsW (fun _ => "x") decodeToolRaises
      5 [5] 0 rfl).2.2.2.2.2 [("name", .str "raising_tool"), ("arguments", .obj [])]
      "raising_tool" (fun _ => .error .typeError) [] .typeError
      rfl rfl rfl rfl rfl⟩

/-- C9: for every non-empty message list and positive sequence length,
`preprocess` returns a single token row of length exactly
`sequence_length` — the concatenated tokens truncated to
`sequence_length`, right-padded with zeros — and a single mask row
marking exactly the first `min(total length, sequence_length)`
positions with ones. -/
theorem preprocess_shape (messages : List (List Int)) (sequence_length : Nat)
    (_h1 : messages ≠ []) (_h2 : 0 < sequence_length) :
    (preprocess messages sequence_length).token_ids =
      [messages.flatten.take sequence_length ++
        List.replicate (sequence_length - messages.flatten.length) 0] ∧
    (messages.flatten.take sequence_length ++
        List.replicate (sequence_length - messages.flatten.length) 0).length =
      sequence_length ∧
    (preprocess messages sequence_length).padding_mask =
      [(List.range sequence_length).map
        (fun i => if i < min messages.flatten.length sequence_length then 1
                  else 0)] := by
  by_cases hlen : messages.flatten.length > sequence_length
  · have h3 : sequence_length - messages.flatten.length = 0 := by omega
    have hm2 : min messages.flatten.length sequence_length = sequence_length := by
      omega
    have h4 : (messages.flatten.take sequence_length).length = sequence_length := by
      rw [List.length_take]
      omega
    have hite : (if messages.flatten.length > sequence_length
        then messages.flatten.take sequence_length else messages.flatten) =
        messages.flatten.take sequence_length := if_pos hlen
    refine ⟨?_, ?_, ?_⟩
    · simp only [preprocess, hite, h4, Nat.sub_self, h3]
    · rw [List.length_append, List.length_take, List.length_replicate]
      omega
    · simp only [preprocess, hite, h4, hm2]
  · have hle : messages.flatten.length ≤ sequence_length := by omega
    have htk : messages.flatten.take sequence_length = messages.flatten :=
      List.take_of_length_le hle
    have hm : min messages.flatten.length sequence_length =
        messages.flatten.length := by omega
    have hite : (if messages.flatten.length > sequence_length
        then messages.flatten.take sequence_length else messages.flatten) =
        messages.flatten := if_neg hlen
    refine ⟨?_, ?_, ?_⟩
    · simp only [preprocess, hite, htk, ite_self]
    · rw [List.length_append, List.length_take, List.length_replicate]
      omega
    · simp only [preprocess, hite, hm]

theorem preprocess_shape_witness :
    ([[1, 2]] : List (List Int)) ≠ [] ∧ 0 < 3 ∧
    ((preprocess [[1, 2]] 3).token_ids =
      [([[1, 2]] : List (List Int)).flatten.take 3 ++
        List.replicate (3 - ([[1, 2]] : List (List Int)).flatten.length) 0] ∧
     (([[1, 2]] : List (List Int)).flatten.take 3 ++
        List.replicate (3 - ([[1, 2]] : List (List Int)).flatten.length) 0).length =
      3 ∧
     (preprocess [[1, 2]] 3).padding_mask =
      [(List.range 3).map
        (fun i => if i < min ([[1, 2]] : List (List Int)).flatten.length 3 then 1
                  else 0)]) :=
  ⟨by decide, by decide, preprocess_shape [[1, 2]] 3 (by decide) (by decide)⟩

end KerasExamples
